import Mathlib

/-!
Verification of the transport protocol implementation in
src/transport/{packet,receiver,sender,protocol,connection}.py, as a shallow
embedding: bytes are `List Nat` (each < 256 where it matters), Python dicts
are insertion-ordered association lists, machine integers are `Nat` (Python
ints are unbounded; struct fields carry explicit range hypotheses), raised
exceptions are surfaced through `Option PyErr` / `Except PyErr`.
-/

/-- Flag constants from packet.py. -/
def FLAG_SYN : Nat := 0x01

def FLAG_ACK : Nat := 0x02

def FLAG_FIN : Nat := 0x04

def FLAG_PSH : Nat := 0x08

/-- struct.calcsize("!HHLLLHHH") = 2+2+4+4+4+2+2+2 = 22 bytes (network byte
order, no padding). -/
def HEADER_LEN : Nat := 22

/-- The dataclass TransportHeader of packet.py, with its defaults. -/
structure TransportHeader where
  ver : Nat := 1
  flags : Nat := 0
  conn_id : Nat := 0
  seq : Nat := 0
  ack : Nat := 0
  rwnd : Nat := 0
  length : Nat := 0
  checksum : Nat := 0
deriving Repr, DecidableEq

/-- Python exceptions that the transport code can raise (or a nested
non-reentrant lock acquisition that blocks forever). -/
inductive PyErr
  | typeError
  | attributeError
  | structError
  | deadlock
deriving Repr, DecidableEq

instance {ε α : Type} [DecidableEq ε] [DecidableEq α] : DecidableEq (Except ε α)
  | .error e, .error f => decidable_of_iff (e = f) (by simp)
  | .error _, .ok _ => isFalse (by simp)
  | .ok _, .error _ => isFalse (by simp)
  | .ok a, .ok b => decidable_of_iff (a = b) (by simp)

/-- Big-endian bytes of a 16-bit field: struct.pack("!H", n) for an in-range n. -/
def packU16 (n : Nat) : List Nat := [n / 256 % 256, n % 256]

/-- Big-endian bytes of a 32-bit field: struct.pack("!L", n) for an in-range n. -/
def packU32 (n : Nat) : List Nat :=
  [n / 16777216 % 256, n / 65536 % 256, n / 256 % 256, n % 256]

/-- The first 20 bytes of struct.pack(HEADER_FORMAT, ...): every field except
the trailing checksum. -/
def headerFront (h : TransportHeader) : List Nat :=
  packU16 h.ver ++ packU16 h.flags ++ packU32 h.conn_id ++ packU32 h.seq ++
    packU32 h.ack ++ packU16 h.rwnd ++ packU16 h.length

/-- struct.pack(HEADER_FORMAT, ver, flags, conn_id, seq, ack, rwnd, length, cks):
both call sites in serialize_packet pass the checksum explicitly (0, then the
computed value), never header.checksum. -/
def packHeader (h : TransportHeader) (cks : Nat) : List Nat :=
  headerFront h ++ packU16 cks

/-- `checksum = (checksum & 0xFFFF) + (checksum >> 16)`: fold the carry of a
16-bit one's-complement accumulation. -/
def foldCarry (s : Nat) : Nat := s % 65536 + s / 65536

/-- The loop of calculate_checksum: 16-bit big-endian words consumed two bytes
at a time, carry folded after each addition.  The input has even length after
padding, so the one-byte leftover arm never fires. -/
def checksumFold : List Nat → Nat → Nat
  | b1 :: b2 :: rest, acc => checksumFold rest (foldCarry (acc + (b1 * 256 + b2)))
  | _, acc => acc

/-- `if len(data) % 2: data += b'\x00'`. -/
def padEven (data : List Nat) : List Nat :=
  if data.length % 2 = 1 then data ++ [0] else data

/-- calculate_checksum of packet.py: 16-bit Internet checksum.  Python's
`~checksum & 0xFFFF` equals `65535 - checksum` for the accumulator values the
loop produces (they stay ≤ 65535 for byte-valued data); the `% 65536` makes
the definition total on arbitrary Nat lists without changing those values. -/
def calculate_checksum (data : List Nat) : Nat :=
  65535 - checksumFold (padEven data) 0 % 65536

/-- verify_checksum of packet.py. -/
def verify_checksum (packet_data : List Nat) : Bool :=
  calculate_checksum packet_data == 0

/-- serialize_packet of packet.py: pack with checksum 0, compute the checksum
over header‖payload, repack with the computed checksum. -/
def serialize_packet (header : TransportHeader) (payload : List Nat) : List Nat :=
  let packet := packHeader header 0 ++ payload
  let cks := calculate_checksum packet
  packHeader header cks ++ payload

/-- `data.foldl (fun a b => a * 256 + b) 0`: big-endian word from bytes, as
struct.unpack reads each field. -/
def bytesToNat (l : List Nat) : Nat := l.foldl (fun a b => a * 256 + b) 0

/-- deserialize_packet of packet.py.  struct.unpack("!HHLLLHHH", data[:22])
raises struct.error when the slice is shorter than 22 bytes; otherwise every
field is read positionally and the payload is everything past byte 22.  No
consistency check between the length field and the payload is performed. -/
def deserialize_packet (data : List Nat) :
    Except PyErr (TransportHeader × List Nat) :=
  if data.length < HEADER_LEN then
    .error .structError
  else
    .ok ({ ver := bytesToNat (data.take 2),
           flags := bytesToNat ((data.drop 2).take 2),
           conn_id := bytesToNat ((data.drop 4).take 4),
           seq := bytesToNat ((data.drop 8).take 4),
           ack := bytesToNat ((data.drop 12).take 4),
           rwnd := bytesToNat ((data.drop 16).take 2),
           length := bytesToNat ((data.drop 18).take 2),
           checksum := bytesToNat ((data.drop 20).take 2) },
         data.drop HEADER_LEN)

/-- All struct.pack field values in range: the domain on which packU16/packU32
model struct.pack (out-of-range values raise struct.error in Python). -/
def HeaderInRange (h : TransportHeader) : Prop :=
  h.ver < 65536 ∧ h.flags < 65536 ∧ h.conn_id < 4294967296 ∧
    h.seq < 4294967296 ∧ h.ack < 4294967296 ∧ h.rwnd < 65536 ∧ h.length < 65536

instance (h : TransportHeader) : Decidable (HeaderInRange h) := by
  unfold HeaderInRange; infer_instance

/-- Word sum of a byte list read two bytes at a time (no carry folding). -/
def wordSum : List Nat → Nat
  | b1 :: b2 :: rest => b1 * 256 + b2 + wordSum rest
  | _ => 0

/-- Recursion principle matching the two-bytes-at-a-time structure of the
checksum loop. -/
theorem twoStepInduction {motive : List Nat → Prop} (h0 : motive [])
    (h1 : ∀ b, motive [b])
    (h2 : ∀ b1 b2 r, motive r → motive (b1 :: b2 :: r)) : ∀ l, motive l
  | [] => h0
  | [b] => h1 b
  | b1 :: b2 :: r => h2 b1 b2 r (twoStepInduction h0 h1 h2 r)

theorem checksumFold_le (l : List Nat) : ∀ acc, (∀ b ∈ l, b < 256) →
    acc ≤ 65535 → checksumFold l acc ≤ 65535 := by
  induction l using twoStepInduction with
  | h0 => intro acc _ hacc; simpa [checksumFold] using hacc
  | h1 b => intro acc _ hacc; simpa [checksumFold] using hacc
  | h2 b1 b2 r ih =>
    intro acc hb hacc
    have hb1 : b1 < 256 := hb b1 (by simp)
    have hb2 : b2 < 256 := hb b2 (by simp)
    have hbr : ∀ b ∈ r, b < 256 := fun b hbmem => hb b (by simp [hbmem])
    have : foldCarry (acc + (b1 * 256 + b2)) ≤ 65535 := by
      unfold foldCarry; omega
    simpa [checksumFold] using ih _ hbr this

theorem checksumFold_mod (l : List Nat) : ∀ acc,
    checksumFold l acc % 65535 = (acc + wordSum l) % 65535 := by
  induction l using twoStepInduction with
  | h0 => intro acc; simp [checksumFold, wordSum]
  | h1 b => intro acc; simp [checksumFold, wordSum]
  | h2 b1 b2 r ih =>
    intro acc
    have step := ih (foldCarry (acc + (b1 * 256 + b2)))
    have hfc : foldCarry (acc + (b1 * 256 + b2)) % 65535 =
        (acc + (b1 * 256 + b2)) % 65535 := by
      unfold foldCarry; omega
    simp only [checksumFold, wordSum]
    omega

theorem checksumFold_eq_zero (l : List Nat) : ∀ acc,
    checksumFold l acc = 0 → acc = 0 ∧ wordSum l = 0 := by
  induction l using twoStepInduction with
  | h0 => intro acc h; simp [checksumFold] at h; simp [wordSum, h]
  | h1 b => intro acc h; simp [checksumFold] at h; simp [wordSum, h]
  | h2 b1 b2 r ih =>
    intro acc h
    simp only [checksumFold] at h
    have := ih _ h
    have hz : acc + (b1 * 256 + b2) = 0 := by
      have := this.1; unfold foldCarry at this; omega
    simp only [wordSum]
    omega

theorem checksumFold_zero_words (l : List Nat) : ∀ acc, wordSum l = 0 →
    acc ≤ 65535 → checksumFold l acc = acc := by
  induction l using twoStepInduction with
  | h0 => intro acc _ _; simp [checksumFold]
  | h1 b => intro acc _ _; simp [checksumFold]
  | h2 b1 b2 r ih =>
    intro acc hw hacc
    simp only [wordSum] at hw
    have hfc : foldCarry (acc + (b1 * 256 + b2)) = acc := by
      unfold foldCarry; omega
    simp only [checksumFold, hfc]
    exact ih acc (by omega) hacc

theorem checksumFold_append (l₁ l₂ : List Nat) : ∀ acc, l₁.length % 2 = 0 →
    checksumFold (l₁ ++ l₂) acc = checksumFold l₂ (checksumFold l₁ acc) := by
  induction l₁ using twoStepInduction with
  | h0 => intro acc _; simp [checksumFold]
  | h1 b => intro acc h; simp at h
  | h2 b1 b2 r ih =>
    intro acc h
    simp only [List.length_cons] at h
    simp only [List.cons_append, checksumFold]
    exact ih _ (by omega)

theorem wordSum_append (l₁ l₂ : List Nat) (h : l₁.length % 2 = 0) :
    wordSum (l₁ ++ l₂) = wordSum l₁ + wordSum l₂ := by
  induction l₁ using twoStepInduction with
  | h0 => simp [wordSum]
  | h1 b => simp at h
  | h2 b1 b2 r ih =>
    simp only [List.length_cons] at h
    simp only [List.cons_append, List.append_eq, wordSum, ih (by omega)]
    omega

theorem headerFront_length (h : TransportHeader) : (headerFront h).length = 20 := by
  simp [headerFront, packU16, packU32]

theorem headerFront_bytes (h : TransportHeader) : ∀ b ∈ headerFront h, b < 256 := by
  intro b hb
  simp [headerFront, packU16, packU32] at hb
  rcases hb with h | h | h | h | h | h | h | h | h | h | h | h | h | h | h | h | h | h | h | h <;>
    omega

theorem padEven_append (l₁ l₂ : List Nat) (h : l₁.length % 2 = 0) :
    padEven (l₁ ++ l₂) = l₁ ++ padEven l₂ := by
  unfold padEven
  by_cases hl : l₂.length % 2 = 1
  · rw [if_pos (by simp; omega), if_pos hl, List.append_assoc]
  · rw [if_neg (by simp; omega), if_neg hl]

theorem padEven_bytes (p : List Nat) (hp : ∀ b ∈ p, b < 256) :
    ∀ b ∈ padEven p, b < 256 := by
  intro b hb
  unfold padEven at hb
  by_cases hl : p.length % 2 = 1
  · rw [if_pos hl] at hb
    simp at hb
    rcases hb with hb | hb
    · exact hp b hb
    · omega
  · rw [if_neg hl] at hb
    exact hp b hb

theorem packHeader_length (h : TransportHeader) (c : Nat) :
    (packHeader h c).length = 22 := by
  simp [packHeader, headerFront, packU16, packU32]

theorem checksumFold_packU16 (c acc : Nat) (hc : c ≤ 65535) :
    checksumFold (packU16 c) acc = foldCarry (acc + c) := by
  simp only [packU16, checksumFold]
  congr 1
  omega

/-- Folding a whole serialized packet: the first 20 header bytes, then the
checksum word, then the (padded) payload. -/
theorem serialize_fold_eq (h : TransportHeader) (p : List Nat) (c : Nat)
    (hc : c ≤ 65535) :
    checksumFold (padEven (packHeader h c ++ p)) 0 =
      checksumFold (padEven p)
        (foldCarry (checksumFold (headerFront h) 0 + c)) := by
  have h22 : (packHeader h c).length % 2 = 0 := by rw [packHeader_length]
  rw [padEven_append _ _ h22]
  unfold packHeader
  rw [List.append_assoc,
    checksumFold_append _ _ 0 (by rw [headerFront_length]),
    checksumFold_append _ _ _ (by simp [packU16]),
    checksumFold_packU16 _ _ hc]

/-- The checksum that serialize_packet writes into the packet. -/
def wireChecksum (h : TransportHeader) (p : List Nat) : Nat :=
  calculate_checksum (packHeader h 0 ++ p)

theorem serialize_packet_eq (h : TransportHeader) (p : List Nat) :
    serialize_packet h p = packHeader h (wireChecksum h p) ++ p := rfl

theorem wireChecksum_le (h : TransportHeader) (p : List Nat) :
    wireChecksum h p ≤ 65535 := by
  unfold wireChecksum calculate_checksum
  omega

/-- Core of the round-trip: a packet serialized with its computed checksum
verifies. -/
theorem verify_serialize (h : TransportHeader) (p : List Nat)
    (hp : ∀ b ∈ p, b < 256) : verify_checksum (serialize_packet h p) = true := by
  set A := checksumFold (headerFront h) 0 with hA
  have hA65 : A ≤ 65535 :=
    checksumFold_le _ 0 (headerFront_bytes h) (by omega)
  set W := wordSum (padEven p) with hW
  set S := checksumFold (padEven p) A with hS
  have hS65 : S ≤ 65535 := checksumFold_le _ A (padEven_bytes p hp) hA65
  have hSmod : S % 65535 = (A + W) % 65535 := checksumFold_mod _ A
  -- the checksum serialize computes
  have hcval : wireChecksum h p = 65535 - S := by
    unfold wireChecksum calculate_checksum
    rw [serialize_fold_eq h p 0 (by omega)]
    have : foldCarry (A + 0) = A := by unfold foldCarry; omega
    rw [this, ← hS, Nat.mod_eq_of_lt (by omega)]
  set c := wireChecksum h p with hc
  have hc65 : c ≤ 65535 := wireChecksum_le h p
  -- the fold over the final packet
  set V := checksumFold (padEven p) (foldCarry (A + c)) with hV
  have hVeq : checksumFold (padEven (packHeader h c ++ p)) 0 = V :=
    serialize_fold_eq h p c hc65
  have hV65 : V ≤ 65535 := by
    refine checksumFold_le _ _ (padEven_bytes p hp) ?_
    unfold foldCarry; omega
  have hVmod : V % 65535 = (foldCarry (A + c) + W) % 65535 := checksumFold_mod _ _
  have hfc : foldCarry (A + c) % 65535 = (A + c) % 65535 := by
    unfold foldCarry; omega
  have hVzero : V % 65535 = 0 := by omega
  have hVne : V ≠ 0 := by
    intro hz
    obtain ⟨hacc, hw0⟩ := checksumFold_eq_zero _ _ hz
    have hAc : A + c = 0 := by unfold foldCarry at hacc; omega
    have hSA : S = A := checksumFold_zero_words _ A (by omega) hA65
    omega
  have hV655 : V = 65535 := by omega
  rw [serialize_packet_eq, verify_checksum, calculate_checksum, ← hc, hVeq, hV655]
  rfl

/-- Parsing a packed header back: every field returns, the checksum field
returns as the value that was packed (not as any field of `h`). -/
theorem deserialize_packHeader (h : TransportHeader) (c : Nat) (p : List Nat)
    (hr : HeaderInRange h) (hc : c < 65536) :
    deserialize_packet (packHeader h c ++ p) =
      .ok ({ h with checksum := c }, p) := by
  obtain ⟨h1, h2, h3, h4, h5, h6, h7⟩ := hr
  have hlen : (packHeader h c ++ p).length = 22 + p.length := by
    simp [packHeader_length]
  unfold deserialize_packet
  rw [if_neg (by rw [hlen]; unfold HEADER_LEN; omega)]
  simp only [packHeader, headerFront, packU16, packU32, List.cons_append,
    List.nil_append, List.append_assoc]
  simp only [List.take_succ_cons, List.take_zero, List.drop_succ_cons,
    List.drop_zero, bytesToNat, List.foldl, Except.ok.injEq, Prod.mk.injEq,
    TransportHeader.mk.injEq]
  refine ⟨⟨?_, ?_, ?_, ?_, ?_, ?_, ?_, ?_⟩, rfl⟩ <;> omega

/-- C1, amended: `verify` accepts every serialized packet, and `deserialize`
returns the payload and every header field as given — except the checksum
field, which returns as the checksum serialize_packet computed and wrote. -/
theorem checksum_roundtrip_upto_checksum_field (h : TransportHeader)
    (p : List Nat) (hr : HeaderInRange h) (hp : ∀ b ∈ p, b < 256) :
    verify_checksum (serialize_packet h p) = true ∧
      deserialize_packet (serialize_packet h p) =
        .ok ({ h with checksum := wireChecksum h p }, p) := by
  refine ⟨verify_serialize h p hp, ?_⟩
  rw [serialize_packet_eq]
  exact deserialize_packHeader h _ p hr (by have := wireChecksum_le h p; omega)

/-- Witness for C1's amended theorem at a concrete header and payload. -/
theorem checksum_roundtrip_upto_checksum_field_witness :
    verify_checksum (serialize_packet
        { flags := 8, conn_id := 3, seq := 5, length := 3 } [1, 2, 3]) = true ∧
      deserialize_packet (serialize_packet
        { flags := 8, conn_id := 3, seq := 5, length := 3 } [1, 2, 3]) =
        .ok ({ flags := 8, conn_id := 3, seq := 5, length := 3,
               checksum := wireChecksum
                 { flags := 8, conn_id := 3, seq := 5, length := 3 } [1, 2, 3] },
             [1, 2, 3]) :=
  checksum_roundtrip_upto_checksum_field
    { flags := 8, conn_id := 3, seq := 5, length := 3 } [1, 2, 3]
    (by decide) (by decide)

/-- Counterexample to C1 as stated: for the default header (whose checksum
field is 0) and the empty payload, deserialize does not return the original
header — the checksum field comes back as the computed value 65534, not 0. -/
theorem checksum_roundtrip_checksum_field_cex :
    deserialize_packet (serialize_packet {} []) ≠
      .ok (({} : TransportHeader), []) := by decide

/-! ## Receiver logic (receiver.py)

Python dicts are modelled as insertion-ordered association lists with unique
keys; `buffer[seq] = payload` replaces in place, `buffer.pop(seq)` removes the
entry, `seq in buffer` is key membership. -/

def MAX_BUFFER_SIZE : Nat := 64 * 1024

def dictInsert {κ ν : Type} [DecidableEq κ] (k : κ) (v : ν) :
    List (κ × ν) → List (κ × ν)
  | [] => [(k, v)]
  | (k', v') :: rest =>
    if k' = k then (k, v) :: rest else (k', v') :: dictInsert k v rest

def dictGet {κ ν : Type} [DecidableEq κ] (k : κ) : List (κ × ν) → Option ν
  | [] => none
  | (k', v') :: rest => if k' = k then some v' else dictGet k rest

def dictRemove {κ ν : Type} [DecidableEq κ] (k : κ) :
    List (κ × ν) → List (κ × ν)
  | [] => []
  | (k', v') :: rest => if k' = k then rest else (k', v') :: dictRemove k rest

theorem dictGet_mem {κ ν : Type} [DecidableEq κ] (k : κ) (v : ν) :
    ∀ l : List (κ × ν), dictGet k l = some v → (k, v) ∈ l := by
  intro l
  induction l with
  | nil => intro h; simp [dictGet] at h
  | cons e rest ih =>
    intro h
    rw [dictGet] at h
    split at h
    · rename_i heq
      simp only [Option.some.injEq] at h
      simp [← heq, ← h]
    · simp [ih h]

theorem dictRemove_subset {κ ν : Type} [DecidableEq κ] (k : κ) :
    ∀ l : List (κ × ν), ∀ e ∈ dictRemove k l, e ∈ l := by
  intro l
  induction l with
  | nil => intro e h; simp [dictRemove] at h
  | cons hd rest ih =>
    intro e h
    rw [dictRemove] at h
    by_cases hk : hd.1 = k
    · rw [if_pos hk] at h
      exact List.mem_cons_of_mem hd h
    · rw [if_neg hk] at h
      simp only [List.mem_cons] at h ⊢
      rcases h with h | h
      · exact Or.inl h
      · exact Or.inr (ih e h)

theorem dictRemove_length_lt {κ ν : Type} [DecidableEq κ] (k : κ) (v : ν) :
    ∀ l : List (κ × ν), dictGet k l = some v →
      (dictRemove k l).length < l.length := by
  intro l
  induction l with
  | nil => intro h; simp [dictGet] at h
  | cons e rest ih =>
    intro h
    rw [dictGet] at h
    rw [dictRemove]
    split at h <;> rename_i heq
    · rw [if_pos heq]; simp
    · rw [if_neg heq]
      simpa using ih h

theorem dictInsert_mem {κ ν : Type} [DecidableEq κ] (k : κ) (v : ν) :
    ∀ l : List (κ × ν), ∀ e ∈ dictInsert k v l, e = (k, v) ∨ e ∈ l := by
  intro l
  induction l with
  | nil => intro e h; simp [dictInsert] at h; simp [h]
  | cons hd rest ih =>
    intro e h
    rw [dictInsert] at h
    by_cases hk : hd.1 = k
    · rw [if_pos hk] at h
      simp only [List.mem_cons] at h ⊢
      rcases h with h | h
      · exact Or.inl h
      · exact Or.inr (Or.inr h)
    · rw [if_neg hk] at h
      simp only [List.mem_cons] at h ⊢
      rcases h with h | h
      · exact Or.inr (Or.inl h)
      · rcases ih e h with h' | h'
        · exact Or.inl h'
        · exact Or.inr (Or.inr h')

/-- Receiver-side per-connection state (ReceiverLogic.__init__; the lock and
the back reference to the Connection are not data). -/
structure ReceiverState where
  buffer : List (Nat × List Nat)
  next_expected_seq : Nat
  advertised_window : Nat
deriving Repr, DecidableEq

def initReceiver : ReceiverState :=
  { buffer := [], next_expected_seq := 0, advertised_window := MAX_BUFFER_SIZE }

/-- `sum(len(p) for p in self.buffer.values())`. -/
def bufferUsed (buf : List (Nat × List Nat)) : Nat :=
  (buf.map (fun e => e.2.length)).sum

/-- ReceiverLogic._would_overflow. -/
def would_overflow (s : ReceiverState) (incoming : List Nat) : Bool :=
  bufferUsed s.buffer + incoming.length > MAX_BUFFER_SIZE

/-- ReceiverLogic._update_advertised_window; `max(0, _)` is Nat subtraction. -/
def update_advertised_window (s : ReceiverState) : ReceiverState :=
  { s with advertised_window := MAX_BUFFER_SIZE - bufferUsed s.buffer }

/-- ReceiverLogic._send_ack: update the window, then hand an ACK header with
cumulative ack and current rwnd to conn._internal_send. -/
def receiver_send_ack (cid : Nat) (s : ReceiverState) :
    ReceiverState × TransportHeader :=
  ((update_advertised_window s),
   { flags := FLAG_ACK, conn_id := cid,
     ack := s.next_expected_seq,
     rwnd := MAX_BUFFER_SIZE - bufferUsed s.buffer })

theorem dictRemove_length_eq {κ ν : Type} [DecidableEq κ] (k : κ) (v : ν) :
    ∀ l : List (κ × ν), dictGet k l = some v →
      l.length = (dictRemove k l).length + 1 := by
  intro l
  induction l with
  | nil => intro h; simp [dictGet] at h
  | cons e rest ih =>
    intro h
    rw [dictGet] at h
    rw [dictRemove]
    split at h <;> rename_i heq
    · rw [if_pos heq]; simp
    · rw [if_neg heq]
      simpa using ih h

/-- The `while self.next_expected_seq in self.buffer` loop of
_deliver_in_order, structurally recursive on a pop-count bound: every
iteration removes one buffer entry, so the initial buffer length bounds the
number of iterations.  Returns (buffer, next_expected_seq, the popped
(position, chunk) pairs in callback order). -/
def deliverLoopFuel : Nat → List (Nat × List Nat) → Nat →
    List (Nat × List Nat) × Nat × List (Nat × List Nat)
  | 0, buf, next => (buf, next, [])
  | fuel + 1, buf, next =>
    match dictGet next buf with
    | none => (buf, next, [])
    | some data =>
      let r := deliverLoopFuel fuel (dictRemove next buf) (next + data.length)
      (r.1, r.2.1, (next, data) :: r.2.2)

def deliverLoop (buf : List (Nat × List Nat)) (next : Nat) :
    List (Nat × List Nat) × Nat × List (Nat × List Nat) :=
  deliverLoopFuel buf.length buf next

/-- ReceiverLogic._deliver_in_order: drain the contiguous run, then update the
advertised window only if something was delivered. -/
def deliver_in_order (s : ReceiverState) :
    ReceiverState × List (Nat × List Nat) :=
  let r := deliverLoop s.buffer s.next_expected_seq
  let s₁ : ReceiverState :=
    { s with buffer := r.1, next_expected_seq := r.2.1 }
  if r.2.2 ≠ [] then (update_advertised_window s₁, r.2.2) else (s₁, r.2.2)

/-- ReceiverLogic.process_data_packet: returns the new state, the chunks
passed to on_message_callback (tagged with the stream position they were
buffered at), and the ACK header always emitted at the end. -/
def process_data_packet (cid : Nat) (s : ReceiverState)
    (header : TransportHeader) (payload : List Nat) :
    ReceiverState × List (Nat × List Nat) × TransportHeader :=
  if header.seq < s.next_expected_seq then
    ((receiver_send_ack cid s).1, [], (receiver_send_ack cid s).2)
  else if would_overflow s payload = false then
    ((receiver_send_ack cid
        (deliver_in_order
          { s with buffer := dictInsert header.seq payload s.buffer }).1).1,
     (deliver_in_order
        { s with buffer := dictInsert header.seq payload s.buffer }).2,
     (receiver_send_ack cid
        (deliver_in_order
          { s with buffer := dictInsert header.seq payload s.buffer }).1).2)
  else
    ((receiver_send_ack cid s).1, [], (receiver_send_ack cid s).2)

/-- C5: an old or duplicate packet (seq < next_expected_seq) is not buffered
and changes neither next_expected_seq nor the buffer; and every call emits a
cumulative ACK whose ack is the (final) next_expected_seq and whose rwnd is
the (final) advertised window. -/
theorem receiver_duplicate_drop_and_always_ack (cid : Nat) (s : ReceiverState)
    (header : TransportHeader) (payload : List Nat) :
    (header.seq < s.next_expected_seq →
      (process_data_packet cid s header payload).1.buffer = s.buffer ∧
      (process_data_packet cid s header payload).1.next_expected_seq =
        s.next_expected_seq ∧
      (process_data_packet cid s header payload).2.1 = []) ∧
    ((process_data_packet cid s header payload).2.2.flags = FLAG_ACK ∧
     (process_data_packet cid s header payload).2.2.ack =
       (process_data_packet cid s header payload).1.next_expected_seq ∧
     (process_data_packet cid s header payload).2.2.rwnd =
       (process_data_packet cid s header payload).1.advertised_window) := by
  unfold process_data_packet
  split_ifs with h1 h2
  · simp [receiver_send_ack, update_advertised_window]
  · simp [receiver_send_ack, update_advertised_window, h1]
  · simp [receiver_send_ack, update_advertised_window, h1]

/-- Total length of a list of delivered (position, chunk) pairs. -/
def sumLens (l : List (Nat × List Nat)) : Nat :=
  (l.map (fun pc => pc.2.length)).sum

/-- The delivered pairs occupy consecutive stream positions starting at n:
each chunk starts exactly where the previous one ended. -/
def ConsecutiveFrom : Nat → List (Nat × List Nat) → Prop
  | _, [] => True
  | n, pc :: rest => pc.1 = n ∧ ConsecutiveFrom (n + pc.2.length) rest

theorem deliverLoop_none (buf : List (Nat × List Nat)) (next : Nat)
    (h : dictGet next buf = none) : deliverLoop buf next = (buf, next, []) := by
  unfold deliverLoop
  cases hl : buf.length with
  | zero => simp [deliverLoopFuel]
  | succ n => simp [deliverLoopFuel, h]

theorem deliverLoop_some (buf : List (Nat × List Nat)) (next : Nat)
    (data : List Nat) (h : dictGet next buf = some data) :
    deliverLoop buf next =
      ((deliverLoop (dictRemove next buf) (next + data.length)).1,
       (deliverLoop (dictRemove next buf) (next + data.length)).2.1,
       (next, data) ::
         (deliverLoop (dictRemove next buf) (next + data.length)).2.2) := by
  have hlen := dictRemove_length_eq next data buf h
  unfold deliverLoop
  rw [hlen]
  simp [deliverLoopFuel, h]

theorem deliverLoop_spec (n : Nat) :
    ∀ (buf : List (Nat × List Nat)) (next : Nat), buf.length ≤ n →
      ConsecutiveFrom next (deliverLoop buf next).2.2 ∧
      (deliverLoop buf next).2.1 = next + sumLens (deliverLoop buf next).2.2 ∧
      (∀ pc ∈ (deliverLoop buf next).2.2, pc ∈ buf) ∧
      (∀ pc ∈ (deliverLoop buf next).1, pc ∈ buf) := by
  induction n with
  | zero =>
    intro buf next hlen
    have hb : buf = [] := List.eq_nil_of_length_eq_zero (by omega)
    subst hb
    rw [deliverLoop_none [] next rfl]
    simp [ConsecutiveFrom, sumLens]
  | succ n ih =>
    intro buf next hlen
    cases hfind : dictGet next buf with
    | none =>
      rw [deliverLoop_none buf next hfind]
      simp [ConsecutiveFrom, sumLens]
    | some data =>
      rw [deliverLoop_some buf next data hfind]
      have hlt := dictRemove_length_lt next data buf hfind
      obtain ⟨ih1, ih2, ih3, ih4⟩ :=
        ih (dictRemove next buf) (next + data.length) (by omega)
      refine ⟨⟨rfl, ih1⟩, ?_, ?_, ?_⟩
      · simp only [sumLens, List.map_cons, List.sum_cons]
        simp only [sumLens] at ih2
        omega
      · intro pc hpc
        rcases List.mem_cons.mp hpc with h | h
        · rw [h]
          exact dictGet_mem next data buf hfind
        · exact dictRemove_subset next buf pc (ih3 pc h)
      · intro pc hpc
        exact dictRemove_subset next buf pc (ih4 pc hpc)

theorem deliver_in_order_spec (s : ReceiverState) :
    ConsecutiveFrom s.next_expected_seq (deliver_in_order s).2 ∧
    (deliver_in_order s).1.next_expected_seq =
      s.next_expected_seq + sumLens (deliver_in_order s).2 ∧
    (∀ pc ∈ (deliver_in_order s).2, pc ∈ s.buffer) ∧
    (∀ pc ∈ (deliver_in_order s).1.buffer, pc ∈ s.buffer) := by
  obtain ⟨h1, h2, h3, h4⟩ :=
    deliverLoop_spec s.buffer.length s.buffer s.next_expected_seq le_rfl
  simp only [deliver_in_order]
  split_ifs with hne
  · exact ⟨h1, by simpa [update_advertised_window] using h2, h3,
      by simpa [update_advertised_window] using h4⟩
  · exact ⟨h1, h2, h3, h4⟩

theorem process_data_packet_spec (cid : Nat) (s : ReceiverState)
    (header : TransportHeader) (payload : List Nat) :
    ConsecutiveFrom s.next_expected_seq
      (process_data_packet cid s header payload).2.1 ∧
    (process_data_packet cid s header payload).1.next_expected_seq =
      s.next_expected_seq +
        sumLens (process_data_packet cid s header payload).2.1 ∧
    (∀ pc ∈ (process_data_packet cid s header payload).2.1,
      pc = (header.seq, payload) ∨ pc ∈ s.buffer) ∧
    (∀ pc ∈ (process_data_packet cid s header payload).1.buffer,
      pc = (header.seq, payload) ∨ pc ∈ s.buffer) := by
  unfold process_data_packet
  split_ifs with h1 h2
  · simp [receiver_send_ack, update_advertised_window, ConsecutiveFrom, sumLens]
    intro a b hab
    exact Or.inr hab
  · obtain ⟨d1, d2, d3, d4⟩ :=
      deliver_in_order_spec { s with buffer := dictInsert header.seq payload s.buffer }
    refine ⟨d1, ?_, ?_, ?_⟩
    · simpa [receiver_send_ack, update_advertised_window] using d2
    · intro pc hpc
      exact dictInsert_mem header.seq payload s.buffer pc (d3 pc hpc)
    · intro pc hpc
      simp only [receiver_send_ack, update_advertised_window] at hpc
      exact dictInsert_mem header.seq payload s.buffer pc (d4 pc hpc)
  · simp [receiver_send_ack, update_advertised_window, ConsecutiveFrom, sumLens]
    intro a b hab
    exact Or.inr hab

/-- Whole runs of the receiver: every arriving data packet processed in turn,
with the delivered (position, chunk) pairs concatenated in callback order. -/
def processPackets (cid : Nat) (s : ReceiverState) :
    List (TransportHeader × List Nat) → ReceiverState × List (Nat × List Nat)
  | [] => (s, [])
  | hp :: rest =>
    ((processPackets cid (process_data_packet cid s hp.1 hp.2).1 rest).1,
     (process_data_packet cid s hp.1 hp.2).2.1 ++
       (processPackets cid (process_data_packet cid s hp.1 hp.2).1 rest).2)

theorem sumLens_append (l₁ l₂ : List (Nat × List Nat)) :
    sumLens (l₁ ++ l₂) = sumLens l₁ + sumLens l₂ := by
  simp [sumLens]

theorem ConsecutiveFrom_append (l₁ l₂ : List (Nat × List Nat)) :
    ∀ n, ConsecutiveFrom n l₁ → ConsecutiveFrom (n + sumLens l₁) l₂ →
      ConsecutiveFrom n (l₁ ++ l₂) := by
  induction l₁ with
  | nil => intro n _ h2; simpa [sumLens] using h2
  | cons pc r ih =>
    intro n h1 h2
    obtain ⟨hpos, hrest⟩ := h1
    refine ⟨hpos, ih _ hrest ?_⟩
    have heq : n + sumLens (pc :: r) = n + pc.2.length + sumLens r := by
      simp [sumLens]; omega
    rw [heq] at h2
    exact h2

theorem ConsecutiveFrom_le (l : List (Nat × List Nat)) :
    ∀ n, ConsecutiveFrom n l → ∀ pc ∈ l, n ≤ pc.1 := by
  induction l with
  | nil => intro n _ pc h; simp at h
  | cons hd r ih =>
    intro n h pc hpc
    obtain ⟨hpos, hrest⟩ := h
    rcases List.mem_cons.mp hpc with h' | h'
    · rw [h']; omega
    · have := ih _ hrest pc h'
      omega

theorem ConsecutiveFrom_pairwise (l : List (Nat × List Nat)) :
    ∀ n, ConsecutiveFrom n l →
      List.Pairwise (fun a b : Nat × List Nat => a.1 + a.2.length ≤ b.1) l := by
  induction l with
  | nil => intro n _; simp
  | cons pc r ih =>
    intro n h
    obtain ⟨hpos, hrest⟩ := h
    refine List.Pairwise.cons ?_ (ih _ hrest)
    intro b hb
    have := ConsecutiveFrom_le r _ hrest b hb
    omega

theorem processPackets_spec (cid : Nat)
    (packets : List (TransportHeader × List Nat)) :
    ∀ s : ReceiverState,
      ConsecutiveFrom s.next_expected_seq (processPackets cid s packets).2 ∧
      (processPackets cid s packets).1.next_expected_seq =
        s.next_expected_seq + sumLens (processPackets cid s packets).2 ∧
      (∀ pc ∈ (processPackets cid s packets).2,
        pc ∈ s.buffer ∨ ∃ hp ∈ packets, pc.1 = hp.1.seq ∧ pc.2 = hp.2) ∧
      (∀ pc ∈ (processPackets cid s packets).1.buffer,
        pc ∈ s.buffer ∨ ∃ hp ∈ packets, pc.1 = hp.1.seq ∧ pc.2 = hp.2) := by
  induction packets with
  | nil =>
    intro s
    simp [processPackets, ConsecutiveFrom, sumLens]
  | cons hp rest ih =>
    intro s
    obtain ⟨p1, p2, p3, p4⟩ := process_data_packet_spec cid s hp.1 hp.2
    obtain ⟨q1, q2, q3, q4⟩ := ih (process_data_packet cid s hp.1 hp.2).1
    rw [processPackets]
    refine ⟨?_, ?_, ?_, ?_⟩
    · refine ConsecutiveFrom_append _ _ _ p1 ?_
      rw [← p2]
      exact q1
    · rw [sumLens_append, q2, p2]
      omega
    · intro pc hpc
      rcases List.mem_append.mp hpc with h | h
      · rcases p3 pc h with h' | h'
        · exact Or.inr ⟨hp, List.mem_cons_self hp rest, by rw [h'], by rw [h']⟩
        · exact Or.inl h'
      · rcases q3 pc h with h' | h'
        · rcases p4 pc h' with h'' | h''
          · exact Or.inr ⟨hp, List.mem_cons_self hp rest, by rw [h''], by rw [h'']⟩
          · exact Or.inl h''
        · obtain ⟨e, he, hee⟩ := h'
          exact Or.inr ⟨e, List.mem_cons_of_mem hp he, hee⟩
    · intro pc hpc
      rcases q4 pc hpc with h' | h'
      · rcases p4 pc h' with h'' | h''
        · exact Or.inr ⟨hp, List.mem_cons_self hp rest, by rw [h''], by rw [h'']⟩
        · exact Or.inl h''
      · obtain ⟨e, he, hee⟩ := h'
        exact Or.inr ⟨e, List.mem_cons_of_mem hp he, hee⟩

/-- C2: over any run from the initial receiver state, the delivered chunks
occupy consecutive stream positions from 0 (so they appear in the order their
bytes were sent), their byte ranges are pairwise disjoint (each sent byte is
delivered at most once, even when buffered out-of-order segments overlap), and
every delivered chunk is the unsplit payload of some received packet at its
seq position. -/
theorem receiver_in_order_no_split_no_dup (cid : Nat)
    (packets : List (TransportHeader × List Nat)) :
    ConsecutiveFrom 0 (processPackets cid initReceiver packets).2 ∧
    List.Pairwise (fun a b : Nat × List Nat => a.1 + a.2.length ≤ b.1)
      (processPackets cid initReceiver packets).2 ∧
    (∀ pc ∈ (processPackets cid initReceiver packets).2,
      ∃ hp ∈ packets, pc.1 = hp.1.seq ∧ pc.2 = hp.2) ∧
    (processPackets cid initReceiver packets).1.next_expected_seq =
      sumLens (processPackets cid initReceiver packets).2 := by
  obtain ⟨h1, h2, h3, h4⟩ := processPackets_spec cid packets initReceiver
  have h0 : initReceiver.next_expected_seq = 0 := rfl
  rw [h0] at h1 h2
  refine ⟨h1, ConsecutiveFrom_pairwise _ 0 h1, ?_, by simpa using h2⟩
  intro pc hpc
  rcases h3 pc hpc with h | h
  · simp [initReceiver] at h
  · exact h

/-- C6, amended: the receiver's overflow test is on buffered bytes, not on
sequence distance — when the bytes already buffered plus the incoming payload
exceed 64 KiB, the payload is dropped without buffering or delivery,
next_expected_seq is unchanged, and an ACK advertising the current window is
still emitted. -/
theorem receiver_overflow_drop_amended (cid : Nat) (s : ReceiverState)
    (header : TransportHeader) (payload : List Nat)
    (hge : ¬ header.seq < s.next_expected_seq)
    (hov : bufferUsed s.buffer + payload.length > MAX_BUFFER_SIZE) :
    (process_data_packet cid s header payload).1.buffer = s.buffer ∧
    (process_data_packet cid s header payload).1.next_expected_seq =
      s.next_expected_seq ∧
    (process_data_packet cid s header payload).2.1 = [] ∧
    (process_data_packet cid s header payload).2.2.flags = FLAG_ACK ∧
    (process_data_packet cid s header payload).2.2.ack = s.next_expected_seq ∧
    (process_data_packet cid s header payload).2.2.rwnd =
      MAX_BUFFER_SIZE - bufferUsed s.buffer := by
  have hwo : would_overflow s payload = true := by
    simp [would_overflow]
    omega
  unfold process_data_packet
  rw [if_neg hge, if_neg (by rw [hwo]; simp)]
  simp [receiver_send_ack, update_advertised_window]

/-- Witness for C6's amended theorem: a 65537-byte payload on the empty
initial buffer is dropped but still acknowledged. -/
theorem receiver_overflow_drop_amended_witness :
    (process_data_packet 0 initReceiver { seq := 0, flags := 8 }
        (List.replicate 65537 0)).1.buffer = initReceiver.buffer ∧
    (process_data_packet 0 initReceiver { seq := 0, flags := 8 }
        (List.replicate 65537 0)).1.next_expected_seq =
      initReceiver.next_expected_seq ∧
    (process_data_packet 0 initReceiver { seq := 0, flags := 8 }
        (List.replicate 65537 0)).2.1 = [] ∧
    (process_data_packet 0 initReceiver { seq := 0, flags := 8 }
        (List.replicate 65537 0)).2.2.flags = FLAG_ACK ∧
    (process_data_packet 0 initReceiver { seq := 0, flags := 8 }
        (List.replicate 65537 0)).2.2.ack = initReceiver.next_expected_seq ∧
    (process_data_packet 0 initReceiver { seq := 0, flags := 8 }
        (List.replicate 65537 0)).2.2.rwnd =
      MAX_BUFFER_SIZE - bufferUsed initReceiver.buffer :=
  receiver_overflow_drop_amended 0 initReceiver { seq := 0, flags := 8 }
    (List.replicate 65537 0) (by simp [initReceiver])
    (by rw [List.length_replicate]; decide)

/-- Counterexample to C6 as stated: a packet whose seq is far beyond the
window (seq + len − next_expected_seq = 70001 > 64 KiB) is nonetheless
buffered, because the code's overflow test only counts bytes already stored. -/
theorem receiver_overflow_condition_cex :
    70000 + 1 - 0 > MAX_BUFFER_SIZE ∧
    (process_data_packet 0 initReceiver { seq := 70000, flags := 8 }
        [7]).1.buffer = [(70000, [7])] := by decide

/-! ## Sender logic (sender.py)

The lock and the back reference to the Connection are not data; the daemon
Timer handles and wall-clock send times stored in unacked_packets are outside
the embedding — only the (header, payload) recorded per sequence number is
kept.  rtt_samples (pure wall-clock data) is likewise omitted. -/

def MAX_PAYLOAD_SIZE : Nat := 1400

/-- SenderLogic state as set up by SenderLogic.__init__. -/
structure SenderState where
  next_seq : Nat
  base_seq : Nat
  send_buffer : List (List Nat)
  unacked_packets : List (Nat × TransportHeader × List Nat)
  advertised_window : Nat
  bytes_sent : Nat
  retransmissions : Nat
deriving Repr, DecidableEq

def initSender : SenderState :=
  { next_seq := 0, base_seq := 0, send_buffer := [], unacked_packets := [],
    advertised_window := 4096, bytes_sent := 0, retransmissions := 0 }

/-- A Python value passed positionally at a call site. -/
inductive PyVal
  | header (h : TransportHeader)
  | bytes (b : List Nat)
  | num (n : Nat)
deriving Repr, DecidableEq

/-- The body of SenderLogic.start_rto_timer once its three parameters
(header, payload, seq_num) are bound: arms a daemon Timer (outside the
embedding) and records the packet under seq_num in unacked_packets. -/
def start_rto_timer_body (s : SenderState) (header : TransportHeader)
    (payload : List Nat) (seq_num : Nat) : SenderState :=
  { s with unacked_packets :=
      dictInsert seq_num (header, payload) s.unacked_packets }

/-- Calling `self.start_rto_timer(...)`: CPython binds the call-site
arguments positionally to the declared parameters (header, payload: bytes,
seq_num: int) and raises TypeError before the body runs when the count does
not match (no call site in the repository passes three arguments of other
shapes). -/
def start_rto_timer_call (s : SenderState) (args : List PyVal) :
    SenderState ⊕ PyErr :=
  match args with
  | [.header h, .bytes p, .num n] => .inl (start_rto_timer_body s h p n)
  | _ => .inr .typeError

/-- The header built for each data packet inside send_buffered_data. -/
def dataHeader (cid seq : Nat) (payload : List Nat) : TransportHeader :=
  { ver := 1, flags := FLAG_PSH, conn_id := cid, seq := seq, ack := 0,
    rwnd := 0, length := payload.length }

/-- The `while (self.next_seq - self.base_seq) < self.advertised_window and
self.send_buffer:` loop of send_buffered_data, structurally recursive on the
queue of pending chunks.  Python ints make the subtraction signed, hence the
Int comparison.  Each iteration pops the head chunk, emits it via
_internal_send (the wire list), adds to bytes_sent, then executes
`self.start_rto_timer(payload, self.next_seq)` — two arguments against a
three-parameter signature — so the TypeError aborts the whole call right
there, before `self.next_seq += len(payload)` runs. -/
def sendLoop (cid : Nat) : List (List Nat) → SenderState →
    SenderState × List (TransportHeader × List Nat) × Option PyErr
  | [], s => (s, [], none)
  | payload :: rest, s =>
    if (s.next_seq : Int) - (s.base_seq : Int) < (s.advertised_window : Int) then
      let s₁ : SenderState :=
        { s with send_buffer := rest,
                 bytes_sent := s.bytes_sent + payload.length }
      match start_rto_timer_call s₁ [.bytes payload, .num s.next_seq] with
      | .inr e => (s₁, [(dataHeader cid s.next_seq payload, payload)], some e)
      | .inl s₂ =>
        let s₃ : SenderState :=
          { s₂ with next_seq := s₂.next_seq + payload.length }
        let r := sendLoop cid rest s₃
        (r.1, (dataHeader cid s.next_seq payload, payload) :: r.2.1, r.2.2)
    else (s, [], none)

/-- SenderLogic.send_buffered_data. -/
def send_buffered_data (cid : Nat) (s : SenderState) :
    SenderState × List (TransportHeader × List Nat) × Option PyErr :=
  sendLoop cid s.send_buffer s

/-- The chunking loop of queue_data_for_sending
(`for i in range(0, len(data), MAX_PAYLOAD_SIZE)`), structurally recursive on
an iteration bound: every slice consumes at least one byte, so len(data)
bounds the number of slices. -/
def chunkLoop : Nat → List Nat → List (List Nat)
  | 0, _ => []
  | fuel + 1, data =>
    if data = [] then []
    else data.take MAX_PAYLOAD_SIZE :: chunkLoop fuel (data.drop MAX_PAYLOAD_SIZE)

def chunkData (data : List Nat) : List (List Nat) :=
  chunkLoop data.length data

/-- SenderLogic.queue_data_for_sending: append MSS-sized chunks to the send
queue, then drain. -/
def queue_data_for_sending (cid : Nat) (s : SenderState) (data : List Nat) :
    SenderState × List (TransportHeader × List Nat) × Option PyErr :=
  send_buffered_data cid { s with send_buffer := s.send_buffer ++ chunkData data }

/-- SenderLogic.process_incoming_ack: pop (cancelling timers) every unacked
seq < header.ack, slide base_seq to header.ack unconditionally, adopt
header.rwnd as the window.  Then, still inside `with self.lock:`, the method
calls self.send_buffered_data(), whose own `with self.lock:` re-acquires the
same non-reentrant threading.Lock — the calling thread blocks forever.  The
returned state is the state at the moment of blocking. -/
def process_incoming_ack (s : SenderState) (header : TransportHeader) :
    SenderState × Option PyErr :=
  ({ s with
      unacked_packets :=
        s.unacked_packets.filter (fun e => ! decide (e.1 < header.ack)),
      base_seq := header.ack,
      advertised_window := header.rwnd },
   some .deadlock)

theorem sendLoop_state (cid : Nat) (buf : List (List Nat)) (s : SenderState) :
    (sendLoop cid buf s).1.base_seq = s.base_seq ∧
    (sendLoop cid buf s).1.next_seq = s.next_seq ∧
    (sendLoop cid buf s).1.unacked_packets = s.unacked_packets := by
  cases buf with
  | nil => simp [sendLoop]
  | cons payload rest =>
    rw [sendLoop]
    split_ifs with hw
    · simp [start_rto_timer_call]
    · simp

/-- C10: whenever the drain loop pops a chunk while the window allows, the
packet goes onto the wire, the two-argument call to the three-parameter
start_rto_timer raises TypeError (aborting the drain), no entry is recorded
in unacked_packets and next_seq is not advanced (so no retransmission timer
is ever armed). -/
theorem send_rto_call_typeerror (cid : Nat) (s : SenderState)
    (payload : List Nat) (rest : List (List Nat))
    (hbuf : s.send_buffer = payload :: rest)
    (hwin : (s.next_seq : Int) - (s.base_seq : Int) <
      (s.advertised_window : Int)) :
    send_buffered_data cid s =
      ({ s with send_buffer := rest,
                bytes_sent := s.bytes_sent + payload.length },
       [(dataHeader cid s.next_seq payload, payload)],
       some PyErr.typeError) ∧
    (send_buffered_data cid s).1.unacked_packets = s.unacked_packets ∧
    (send_buffered_data cid s).1.next_seq = s.next_seq := by
  have h : send_buffered_data cid s =
      ({ s with send_buffer := rest,
                bytes_sent := s.bytes_sent + payload.length },
       [(dataHeader cid s.next_seq payload, payload)],
       some PyErr.typeError) := by
    unfold send_buffered_data
    rw [hbuf, sendLoop, if_pos hwin]
    rfl
  exact ⟨h, by rw [h], by rw [h]⟩

/-- Witness for C10 at a concrete sender state with one queued chunk. -/
theorem send_rto_call_typeerror_witness :
    send_buffered_data 5
        { next_seq := 0, base_seq := 0, send_buffer := [[1, 2]],
          unacked_packets := [], advertised_window := 4096, bytes_sent := 0,
          retransmissions := 0 } =
      ({ next_seq := 0, base_seq := 0, send_buffer := [],
         unacked_packets := [], advertised_window := 4096, bytes_sent := 2,
         retransmissions := 0 },
       [(dataHeader 5 0 [1, 2], [1, 2])], some PyErr.typeError) ∧
    (send_buffered_data 5
        { next_seq := 0, base_seq := 0, send_buffer := [[1, 2]],
          unacked_packets := [], advertised_window := 4096, bytes_sent := 0,
          retransmissions := 0 }).1.unacked_packets = [] ∧
    (send_buffered_data 5
        { next_seq := 0, base_seq := 0, send_buffer := [[1, 2]],
          unacked_packets := [], advertised_window := 4096, bytes_sent := 0,
          retransmissions := 0 }).1.next_seq = 0 :=
  send_rto_call_typeerror 5
    { next_seq := 0, base_seq := 0, send_buffer := [[1, 2]],
      unacked_packets := [], advertised_window := 4096, bytes_sent := 0,
      retransmissions := 0 } [1, 2] [] rfl (by decide)

/-- The sender invariant of C9: base_seq ≤ next_seq and every in-flight key
lies in [base_seq, next_seq). -/
def SenderInv (s : SenderState) : Prop :=
  s.base_seq ≤ s.next_seq ∧
    ∀ e ∈ s.unacked_packets, s.base_seq ≤ e.1 ∧ e.1 < s.next_seq

instance (s : SenderState) : Decidable (SenderInv s) := by
  unfold SenderInv; infer_instance

theorem SenderInv_congr (s t : SenderState) (h1 : t.base_seq = s.base_seq)
    (h2 : t.next_seq = s.next_seq)
    (h3 : t.unacked_packets = s.unacked_packets) :
    SenderInv s → SenderInv t := by
  intro hs
  unfold SenderInv at hs ⊢
  rw [h1, h2, h3]
  exact hs

/-- C9, amended: queueing and draining always preserve the invariant (they
touch neither base_seq, next_seq nor the in-flight map), and
process_incoming_ack preserves it provided header.ack ≤ next_seq; an ACK with
ack > next_seq sets base_seq = ack > next_seq and breaks base_seq ≤ next_seq
(process_incoming_ack slides base_seq unconditionally). -/
theorem sender_invariant_amended (cid : Nat) (s : SenderState)
    (data : List Nat) (header : TransportHeader) (hinv : SenderInv s) :
    SenderInv (queue_data_for_sending cid s data).1 ∧
    SenderInv (send_buffered_data cid s).1 ∧
    (header.ack ≤ s.next_seq →
      SenderInv (process_incoming_ack s header).1) := by
  refine ⟨?_, ?_, ?_⟩
  · obtain ⟨h1, h2, h3⟩ := sendLoop_state cid
      (s.send_buffer ++ chunkData data)
      { s with send_buffer := s.send_buffer ++ chunkData data }
    exact SenderInv_congr s _ h1 h2 h3 hinv
  · obtain ⟨h1, h2, h3⟩ := sendLoop_state cid s.send_buffer s
    exact SenderInv_congr s _ h1 h2 h3 hinv
  · intro hack
    obtain ⟨hbn, hkeys⟩ := hinv
    simp only [process_incoming_ack, SenderInv]
    refine ⟨hack, ?_⟩
    intro e he
    rw [List.mem_filter] at he
    obtain ⟨hmem, hkeep⟩ := he
    have hge : ¬ e.1 < header.ack := by
      simpa using hkeep
    have := hkeys e hmem
    exact ⟨by omega, this.2⟩

/-- Witness for C9's amended theorem at the initial sender state. -/
theorem sender_invariant_amended_witness :
    SenderInv (queue_data_for_sending 0 initSender [5]).1 ∧
    SenderInv (send_buffered_data 0 initSender).1 ∧
    (({ ack := 0, rwnd := 7, flags := 2 } : TransportHeader).ack ≤
        initSender.next_seq →
      SenderInv (process_incoming_ack initSender
        { ack := 0, rwnd := 7, flags := 2 }).1) :=
  sender_invariant_amended 0 initSender [5]
    { ack := 0, rwnd := 7, flags := 2 } (by decide)

/-- Counterexample to C9 as stated: an incoming ACK whose ack value (1) is
above next_seq (0) leaves base_seq = 1 > next_seq = 0, violating
base_seq ≤ next_seq. -/
theorem sender_invariant_ack_above_next_cex :
    ¬ ((process_incoming_ack initSender
          { ack := 1, flags := 2 }).1.base_seq ≤
        (process_incoming_ack initSender
          { ack := 1, flags := 2 }).1.next_seq) := by decide

/-- Sender states reachable from SenderLogic.__init__ through the three
operations the class exposes. -/
inductive SenderReachable : SenderState → Prop
  | init : SenderReachable initSender
  | queue (cid : Nat) (data : List Nat) {s : SenderState} :
      SenderReachable s →
      SenderReachable (queue_data_for_sending cid s data).1
  | drain (cid : Nat) {s : SenderState} :
      SenderReachable s → SenderReachable (send_buffered_data cid s).1
  | ack (header : TransportHeader) {s : SenderState} :
      SenderReachable s → SenderReachable (process_incoming_ack s header).1

/-- next_seq is never advanced in any reachable state: the only line that
would advance it sits after the start_rto_timer call that raises TypeError. -/
theorem reachable_next_seq_zero (t : SenderState) (ht : SenderReachable t) :
    t.next_seq = 0 := by
  induction ht with
  | init => rfl
  | queue cid data hs ih =>
    rename_i s
    have := (sendLoop_state cid (s.send_buffer ++ chunkData data)
      { s with send_buffer := s.send_buffer ++ chunkData data }).2.1
    unfold queue_data_for_sending send_buffered_data
    rw [this]
    exact ih
  | drain cid hs ih =>
    rename_i s
    have := (sendLoop_state cid s.send_buffer s).2.1
    unfold send_buffered_data
    rw [this]
    exact ih
  | ack header hs ih =>
    rename_i s
    simpa [process_incoming_ack] using ih

/-- The drain loop puts a segment on the wire only when its entry guard
(next_seq − base_seq) < advertised_window holds — the guard does not include
the head chunk's length. -/
theorem send_emits_only_in_window (cid : Nat) (s : SenderState)
    (hsend : (send_buffered_data cid s).2.1 ≠ []) :
    (s.next_seq : Int) - (s.base_seq : Int) < (s.advertised_window : Int) := by
  unfold send_buffered_data at hsend
  cases hb : s.send_buffer with
  | nil => rw [hb] at hsend; simp [sendLoop] at hsend
  | cons p r =>
    rw [hb] at hsend
    by_contra hw
    rw [sendLoop, if_neg hw] at hsend
    simp at hsend

/-- C3, amended: at every reachable instant (next_seq − base_seq) ≤
advertised_window holds — degenerately, because next_seq is never advanced
(C10's TypeError) — and the drain loop transmits only when
(next_seq − base_seq) < advertised_window, a guard that does not account for
the head chunk's length, so a transmitted segment may carry more bytes than
the window allows. -/
theorem sender_window_guard_amended (cid : Nat) (s t : SenderState)
    (ht : SenderReachable t)
    (hsend : (send_buffered_data cid s).2.1 ≠ []) :
    (t.next_seq : Int) - (t.base_seq : Int) ≤ (t.advertised_window : Int) ∧
    (s.next_seq : Int) - (s.base_seq : Int) < (s.advertised_window : Int) := by
  refine ⟨?_, send_emits_only_in_window cid s hsend⟩
  have h0 := reachable_next_seq_zero t ht
  rw [h0]
  have : (0 : Int) ≤ t.base_seq := Int.ofNat_nonneg _
  have : (0 : Int) ≤ t.advertised_window := Int.ofNat_nonneg _
  omega

/-- Witness for C3's amended theorem: the initial state, and a drain from a
state with a 2-byte head chunk and a 1-byte window, which does transmit. -/
theorem sender_window_guard_amended_witness :
    ((initSender.next_seq : Int) - (initSender.base_seq : Int) ≤
      (initSender.advertised_window : Int)) ∧
    (((({ next_seq := 0, base_seq := 0, send_buffer := [[7, 7]],
          unacked_packets := [], advertised_window := 1, bytes_sent := 0,
          retransmissions := 0 } : SenderState).next_seq : Int) -
        (({ next_seq := 0, base_seq := 0, send_buffer := [[7, 7]],
            unacked_packets := [], advertised_window := 1, bytes_sent := 0,
            retransmissions := 0 } : SenderState).base_seq : Int)) <
      (({ next_seq := 0, base_seq := 0, send_buffer := [[7, 7]],
          unacked_packets := [], advertised_window := 1, bytes_sent := 0,
          retransmissions := 0 } : SenderState).advertised_window : Int)) :=
  sender_window_guard_amended 0
    { next_seq := 0, base_seq := 0, send_buffer := [[7, 7]],
      unacked_packets := [], advertised_window := 1, bytes_sent := 0,
      retransmissions := 0 }
    initSender SenderReachable.init (by decide)

/-- Counterexample to C3 as stated: with a last advertised window of 1 and a
2-byte head chunk, the drain loop transmits the segment although
next_seq − base_seq + len(chunk) = 2 > 1. -/
theorem sender_window_guard_cex :
    (send_buffered_data 0
        { next_seq := 0, base_seq := 0, send_buffer := [[7, 7]],
          unacked_packets := [], advertised_window := 1, bytes_sent := 0,
          retransmissions := 0 }).2.1 =
      [(dataHeader 0 0 [7, 7], [7, 7])] ∧
    0 - 0 + ([7, 7] : List Nat).length > 1 := by decide

/-! ## Protocol engine (protocol.py, connection.py)

The UDP socket, threads and callbacks-as-objects are outside the embedding:
a routed datagram's observable outcome is the new engine state, the
(header, payload) pairs handed to _send_raw_packet, the application callbacks
fired, and the uncaught exception (or permanent block) that ends the
listener, if any. -/

inductive ConnectionState
  | LISTENING
  | SYN_SENT
  | SYN_RECV
  | ESTABLISHED
  | FIN_WAIT
  | CLOSED
deriving Repr, DecidableEq

/-- A peer address (ip, port); the router only compares addresses. -/
abbrev Addr := Nat × Nat

/-- Connection of connection.py (callbacks and clocks are not data). -/
structure Connection where
  conn_id : Nat
  peer_address : Addr
  state : ConnectionState
  receiver : ReceiverState
  sender : SenderState
deriving Repr, DecidableEq

/-- Connection.__init__: fresh ReceiverLogic and SenderLogic. -/
def mkConnection (cid : Nat) (addr : Addr) (st : ConnectionState) : Connection :=
  { conn_id := cid, peer_address := addr, state := st,
    receiver := initReceiver, sender := initSender }

/-- TransportProtocol state: the peer-address → Connection map and whether an
on_new_connection callback has been registered. -/
structure ProtocolState where
  connections : List (Addr × Connection)
  on_new_connection_set : Bool
deriving Repr, DecidableEq

/-- Attribute lookup `sender.seq_num`: SenderLogic.__init__ assigns next_seq,
base_seq, send_buffer, unacked_packets, lock, advertised_window, bytes_sent,
retransmissions and rtt_samples — never seq_num — so the lookup raises
AttributeError. -/
def sender_seq_num (_s : SenderState) : Option Nat := none

/-- Attribute lookup `receiver.get_window_size`: ReceiverLogic defines no
method get_window_size, so the lookup raises AttributeError. -/
def receiver_get_window_size (_r : ReceiverState) : Option Nat := none

/-- Application-visible callback invocations. -/
inductive AppEvent
  | message (data : List Nat)
  | newConnection (cid : Nat)
  | disconnect (cid : Nat)
deriving Repr, DecidableEq

abbrev RouteResult :=
  ProtocolState × List (TransportHeader × List Nat) × List AppEvent ×
    Option PyErr

/-- TransportProtocol._handle_new_syn.  `r` is the value random.randint(1,
0xFFFFFFFF) returned.  The Connection is created and put into the map first;
then building the SYN-ACK header evaluates conn.sender.seq_num (and
conn.receiver.get_window_size()), which raises AttributeError — no packet is
sent, and the exception propagates out of the listener loop. -/
def handle_new_syn (ps : ProtocolState) (header : TransportHeader)
    (addr : Addr) (r : Nat) : RouteResult :=
  if ps.on_new_connection_set = false then
    (ps, [], [], none)
  else
    let conn := mkConnection r addr .SYN_RECV
    let ps₁ : ProtocolState :=
      { ps with connections := dictInsert addr conn ps.connections }
    match sender_seq_num conn.sender, receiver_get_window_size conn.receiver with
    | some isn, some w =>
      (ps₁,
       [({ flags := FLAG_SYN ||| FLAG_ACK, conn_id := r, seq := isn,
           ack := header.seq + 1, rwnd := w }, [])], [], none)
    | _, _ => (ps₁, [], [], some .attributeError)

/-- TransportProtocol._handle_syn_ack: state and conn_id are assigned before
the final-ACK header is built, so the connection becomes ESTABLISHED and then
the seq_num / get_window_size lookups raise AttributeError. -/
def handle_syn_ack (ps : ProtocolState) (conn : Connection)
    (header : TransportHeader) (addr : Addr) : RouteResult :=
  let conn' : Connection :=
    { conn with state := .ESTABLISHED, conn_id := header.conn_id }
  let ps₁ : ProtocolState :=
    { ps with connections := dictInsert addr conn' ps.connections }
  match sender_seq_num conn'.sender, receiver_get_window_size conn'.receiver with
  | some isn, some w =>
    (ps₁,
     [({ flags := FLAG_ACK, conn_id := conn'.conn_id, seq := isn,
         ack := header.seq + 1, rwnd := w }, [])], [], none)
  | _, _ => (ps₁, [], [], some .attributeError)

/-- TransportProtocol._handle_handshake_ack. -/
def handle_handshake_ack (ps : ProtocolState) (conn : Connection)
    (addr : Addr) : RouteResult :=
  let conn' : Connection := { conn with state := .ESTABLISHED }
  ({ ps with connections := dictInsert addr conn' ps.connections }, [],
   if ps.on_new_connection_set then [.newConnection conn'.conn_id] else [],
   none)

/-- TransportProtocol._handle_fin: the ACK header is built first, and
evaluating conn.receiver.get_window_size() raises AttributeError before
anything is sent, any callback fires or any state changes.  (The arm for the
attribute existing shows what the rest of the method would do.) -/
def handle_fin (ps : ProtocolState) (conn : Connection)
    (header : TransportHeader) (addr : Addr) : RouteResult :=
  match receiver_get_window_size conn.receiver with
  | some w =>
    ({ ps with connections := dictRemove addr ps.connections },
     [({ flags := FLAG_ACK, conn_id := conn.conn_id, ack := header.seq + 1,
         rwnd := w }, [])],
     [.disconnect conn.conn_id], none)
  | none => (ps, [], [], some .attributeError)

/-- The ESTABLISHED arm of the listener: three sequential `if`s on FIN, ACK
and data.  A FIN raises AttributeError (killing the listener) and an ACK
blocks the listener thread forever inside process_incoming_ack, so in either
case the later branches never run. -/
def established_route (ps : ProtocolState) (conn : Connection)
    (header : TransportHeader) (payload : List Nat) (addr : Addr) :
    RouteResult :=
  if header.flags &&& FLAG_FIN ≠ 0 then
    handle_fin ps conn header addr
  else if header.flags &&& FLAG_ACK ≠ 0 then
    let conn' : Connection :=
      { conn with sender := (process_incoming_ack conn.sender header).1 }
    ({ ps with connections := dictInsert addr conn' ps.connections },
     [], [], (process_incoming_ack conn.sender header).2)
  else if payload ≠ [] ∨ header.flags &&& FLAG_PSH ≠ 0 then
    let conn' : Connection :=
      { conn with receiver :=
          (process_data_packet conn.conn_id conn.receiver header payload).1 }
    ({ ps with connections := dictInsert addr conn' ps.connections },
     [((process_data_packet conn.conn_id conn.receiver header payload).2.2, [])],
     (process_data_packet conn.conn_id conn.receiver header payload).2.1.map
       (fun pc => AppEvent.message pc.2),
     none)
  else (ps, [], [], none)

/-- One iteration of TransportProtocol._listen_loop on a received datagram:
verify the checksum (drop on failure and continue), deserialize (struct.error
is not a socket.error, so it escapes the except clause and kills the
listener; the `if not header` drop branch is dead code — a dataclass is
always truthy), then route on (address, state, flags).  A connection in any
state other than SYN_SENT, SYN_RECV or ESTABLISHED matches no branch: the
packet is silently ignored. -/
def route_packet (ps : ProtocolState) (raw : List Nat) (addr : Addr)
    (r : Nat) : RouteResult :=
  if verify_checksum raw = false then
    (ps, [], [], none)
  else
    match deserialize_packet raw with
    | .error e => (ps, [], [], some e)
    | .ok (header, payload) =>
      match dictGet addr ps.connections with
      | some conn =>
        if conn.state = .SYN_SENT ∧ header.flags = (FLAG_SYN ||| FLAG_ACK) then
          handle_syn_ack ps conn header addr
        else if conn.state = .SYN_RECV ∧ header.flags = FLAG_ACK then
          handle_handshake_ack ps conn addr
        else if conn.state = .ESTABLISHED then
          established_route ps conn header payload addr
        else
          (ps, [], [], none)
      | none =>
        if header.flags = FLAG_SYN then handle_new_syn ps header addr r
        else (ps, [], [], none)

theorem dictGet_insert {κ ν : Type} [DecidableEq κ] (k : κ) (v : ν) :
    ∀ l : List (κ × ν), dictGet k (dictInsert k v l) = some v := by
  intro l
  induction l with
  | nil => simp [dictInsert, dictGet]
  | cons e rest ih =>
    rw [dictInsert]
    by_cases hk : e.1 = k
    · rw [if_pos hk, dictGet, if_pos rfl]
    · rw [if_neg hk, dictGet, if_neg hk]
      exact ih

/-- C4: on a SYN from an unknown address (server configured), _handle_new_syn
creates the SYN_RECV connection under the drawn conn_id r and registers it in
the map, but building the SYN-ACK header raises AttributeError (SenderLogic
has no seq_num, ReceiverLogic no get_window_size): no SYN+ACK is handed to
the socket, no callback fires, and the exception escapes the listener loop. -/
theorem new_syn_attribute_error (ps : ProtocolState) (header : TransportHeader)
    (addr : Addr) (r : Nat) (hcb : ps.on_new_connection_set = true) :
    dictGet addr (handle_new_syn ps header addr r).1.connections =
      some (mkConnection r addr ConnectionState.SYN_RECV) ∧
    (handle_new_syn ps header addr r).2.1 = [] ∧
    (handle_new_syn ps header addr r).2.2.1 = [] ∧
    (handle_new_syn ps header addr r).2.2.2 = some PyErr.attributeError := by
  unfold handle_new_syn
  rw [if_neg (by rw [hcb]; simp)]
  exact ⟨dictGet_insert addr _ ps.connections, rfl, rfl, rfl⟩

/-- Witness for C4's theorem at a concrete configured engine. -/
theorem new_syn_attribute_error_witness :
    dictGet (3, 4)
      (handle_new_syn { connections := [], on_new_connection_set := true }
        { flags := 1 } (3, 4) 7).1.connections =
      some (mkConnection 7 (3, 4) ConnectionState.SYN_RECV) ∧
    (handle_new_syn { connections := [], on_new_connection_set := true }
        { flags := 1 } (3, 4) 7).2.1 = [] ∧
    (handle_new_syn { connections := [], on_new_connection_set := true }
        { flags := 1 } (3, 4) 7).2.2.1 = [] ∧
    (handle_new_syn { connections := [], on_new_connection_set := true }
        { flags := 1 } (3, 4) 7).2.2.2 = some PyErr.attributeError :=
  new_syn_attribute_error { connections := [], on_new_connection_set := true }
    { flags := 1 } (3, 4) 7 rfl

/-- C8: a datagram arriving for a connection in FIN_WAIT matches no branch of
the listener's router — the engine state is unchanged (the connection stays
in FIN_WAIT in the map), nothing is sent, and no callback (in particular no
on_disconnect) fires. -/
theorem fin_wait_ack_ignored (ps : ProtocolState) (raw : List Nat)
    (addr : Addr) (r : Nat) (conn : Connection)
    (hconn : dictGet addr ps.connections = some conn)
    (hstate : conn.state = ConnectionState.FIN_WAIT) :
    (route_packet ps raw addr r).1 = ps ∧
    (route_packet ps raw addr r).2.1 = [] ∧
    (route_packet ps raw addr r).2.2.1 = [] := by
  unfold route_packet
  split_ifs with hv
  · exact ⟨rfl, rfl, rfl⟩
  · cases hd : deserialize_packet raw with
    | error e => simp [hd]
    | ok hp =>
      obtain ⟨header, payload⟩ := hp
      simp only [hd, hconn]
      rw [if_neg (by simp [hstate]), if_neg (by simp [hstate]),
        if_neg (by simp [hstate])]
      exact ⟨rfl, rfl, rfl⟩

/-- Witness for C8's theorem: a FIN_WAIT connection receiving the plain ACK
that acknowledges its FIN. -/
theorem fin_wait_ack_ignored_witness :
    (route_packet
        { connections :=
            [((1, 2), mkConnection 5 (1, 2) ConnectionState.FIN_WAIT)],
          on_new_connection_set := false }
        (serialize_packet { flags := 2, conn_id := 5, ack := 1 } [])
        (1, 2) 0).1 =
      { connections :=
          [((1, 2), mkConnection 5 (1, 2) ConnectionState.FIN_WAIT)],
        on_new_connection_set := false } ∧
    (route_packet
        { connections :=
            [((1, 2), mkConnection 5 (1, 2) ConnectionState.FIN_WAIT)],
          on_new_connection_set := false }
        (serialize_packet { flags := 2, conn_id := 5, ack := 1 } [])
        (1, 2) 0).2.1 = [] ∧
    (route_packet
        { connections :=
            [((1, 2), mkConnection 5 (1, 2) ConnectionState.FIN_WAIT)],
          on_new_connection_set := false }
        (serialize_packet { flags := 2, conn_id := 5, ack := 1 } [])
        (1, 2) 0).2.2.1 = [] :=
  fin_wait_ack_ignored
    { connections :=
        [((1, 2), mkConnection 5 (1, 2) ConnectionState.FIN_WAIT)],
      on_new_connection_set := false }
    (serialize_packet { flags := 2, conn_id := 5, ack := 1 } [])
    (1, 2) 0 (mkConnection 5 (1, 2) ConnectionState.FIN_WAIT) rfl rfl

/-- C7: the checksum-valid 2-byte datagram 0xFFFF makes deserialize raise
struct.error, which `except socket.error` does not catch — the listener loop
ends with the exception instead of dropping silently; and a well-formed
22+ byte packet whose length field (5) disagrees with its payload length (1)
deserializes fine and is processed all the way to the application callback,
mutating the connection's receiver state, instead of failing as Malformed. -/
theorem malformed_datagram_behavior :
    verify_checksum [255, 255] = true ∧
    deserialize_packet [255, 255] = Except.error PyErr.structError ∧
    route_packet { connections := [], on_new_connection_set := false }
        [255, 255] (1, 2) 1 =
      ({ connections := [], on_new_connection_set := false }, [], [],
       some PyErr.structError) ∧
    deserialize_packet
        (serialize_packet { flags := FLAG_PSH, length := 5 } [9]) =
      Except.ok ({ flags := FLAG_PSH, length := 5, checksum := 63217 }, [9]) ∧
    (route_packet
        { connections :=
            [((1, 2), mkConnection 9 (1, 2) ConnectionState.ESTABLISHED)],
          on_new_connection_set := false }
        (serialize_packet { flags := FLAG_PSH, length := 5 } [9])
        (1, 2) 1).2.2.1 = [AppEvent.message [9]] := by decide
